import Mathlib

/-!
Verification of the holviapi invoicing module (holviapi/invoicing.py): a shallow
embedding of its JSON data model, decimal formatting, date handling, and the
Invoice / InvoiceItem mapping and CRUD operations, together with theorems about
the documented behaviour.

Modelling conventions:
- Python dicts are association lists in insertion order; assigning an existing
  key keeps its position, assigning a fresh key appends.
- decimal.Decimal values are pairs (mantissa : Int, scale : Nat) denoting
  mantissa / 10 ^ scale, with exact integer arithmetic.
- Exceptions are modelled with Except / Option; network traffic is a trace of
  HttpCall values answered by a connection oracle.
-/

/-- A JSON value as handled by the module (numbers restricted to integers,
which is all the payloads here use). -/
inductive JSON where
  | null
  | bool (b : Bool)
  | str (s : String)
  | num (n : Int)
  | arr (elems : List JSON)
  | obj (entries : List (String × JSON))

/-- A JSON object body: insertion-ordered key/value pairs (a Python dict). -/
abbrev Jobj := List (String × JSON)

/-- Python truthiness of a JSON value (bool(x)). -/
def truthy : JSON → Bool
  | .null => false
  | .bool b => b
  | .str s => !(s == "")
  | .num n => !(n == 0)
  | .arr l => !l.isEmpty
  | .obj l => !l.isEmpty

/-- Python dict.get(k): the value at the first matching key, if any. -/
def getKey : Jobj → String → Option JSON
  | [], _ => none
  | p :: rest, k => if p.1 = k then some p.2 else getKey rest k

/-- Truthiness of dict.get(k) (None, hence falsy, when the key is absent). -/
def truthyOpt : Option JSON → Bool
  | none => false
  | some v => truthy v

/-- Python dict assignment d[k] = v: replace in place if the key exists,
append otherwise. -/
def setKey (l : Jobj) (k : String) (v : JSON) : Jobj :=
  if (getKey l k).isSome then l.map (fun p => if p.1 = k then (k, v) else p)
  else l ++ [(k, v)]

/-- Python del d[k] (keys are unique in a dict, so removing every match
coincides with removing the single entry). -/
def delKey (l : Jobj) (k : String) : Jobj :=
  l.filter (fun p => !(p.1 == k))

/-- Python `k in keys` membership test on a list of strings. -/
def keyIn (k : String) (ks : List String) : Bool :=
  ks.any (fun a => k == a)

/-- Python str() of a JSON value, as used by '...'.format(code=value).
Container reprs are abbreviated; they are never formatted by the claims. -/
def pyStr : JSON → String
  | .str s => s
  | .num n => toString n
  | .bool true => "True"
  | .bool false => "False"
  | .null => "None"
  | .arr _ => "<list>"
  | .obj _ => "<dict>"

/-- Option-valued mapM over lists, with plain structural recursion. -/
def omapM (f : α → Option β) : (xs : List α) → Option (List β)
  | [] => some []
  | a :: rest =>
    match f a, omapM f rest with
    | some b, some bs => some (b :: bs)
    | _, _ => none

/-- An exact decimal number: mant / 10 ^ scale (decimal.Decimal). -/
structure Dec where
  mant : Int
  scale : Nat
deriving DecidableEq, Repr

/-- The value of a decimal digit character. -/
def chVal (c : Char) : Option Nat :=
  if '0' ≤ c ∧ c ≤ '9' then some (c.toNat - 48) else none

/-- The decimal digit character for n % 10. -/
def digitCh (n : Nat) : Char :=
  Char.ofNat (48 + n % 10)

/-- The number denoted by a list of digit characters (none on a non-digit).
An empty list yields 0; callers guard emptiness separately. -/
def digitsVal (cs : List Char) : Option Nat :=
  cs.foldl
    (fun acc c =>
      match acc, chVal c with
      | some a, some v => some (a * 10 + v)
      | _, _ => none)
    (some 0)

/-- Parse of an unsigned fixed-point literal, as decimal.Decimal accepts it
(optional integer part, optional fractional part, at least one digit overall;
exponents and specials are not used by this module's payloads). -/
def parseDecCore (cs : List Char) : Option Dec :=
  let ip := cs.takeWhile (fun c => !(c == '.'))
  let rest := cs.drop ip.length
  match rest with
  | [] =>
    match digitsVal ip with
    | some v => if ip.isEmpty then none else some ⟨(v : Int), 0⟩
    | none => none
  | _ :: frac =>
    if frac.any (fun c => c == '.') then none
    else
      match digitsVal ip, digitsVal frac with
      | some a, some b =>
        if ip.isEmpty && frac.isEmpty then none
        else some ⟨(a * 10 ^ frac.length + b : Int), frac.length⟩
      | _, _ => none

/-- decimal.Decimal(s) on a plain fixed-point string literal. -/
def parseDec (s : String) : Option Dec :=
  match s.data with
  | '-' :: rest => (parseDecCore rest).map (fun d => ⟨-d.mant, d.scale⟩)
  | '+' :: rest => parseDecCore rest
  | cs => parseDecCore cs

/-- Mantissa of d.quantize(Decimal(".01")): the value scaled to two decimal
places, rounded half-to-even by magnitude (decimal's default ROUND_HALF_EVEN). -/
def quantHalfEven (d : Dec) : Int :=
  if d.scale ≤ 2 then d.mant * (10 : Int) ^ (2 - d.scale)
  else
    let p : Nat := 10 ^ (d.scale - 2)
    let a := d.mant.natAbs
    let q := a / p
    let r := a % p
    let q' := if 2 * r > p then q + 1
              else if 2 * r < p then q
              else if q % 2 = 1 then q + 1 else q
    if d.mant < 0 then -(q' : Int) else (q' : Int)

/-- str() of a Decimal with exponent -2 and mantissa m: sign, integer part,
then a dot and exactly two digits. -/
def decStr2 (m : Int) : String :=
  (if m < 0 then "-" else "") ++ toString (m.natAbs / 100) ++
    String.mk ['.', digitCh (m.natAbs / 10), digitCh m.natAbs]

/-- A calendar date (datetime.date). -/
structure Date where
  year : Nat
  month : Nat
  day : Nat
deriving DecidableEq, Repr

/-- The Gregorian leap-year rule used by datetime. -/
def isLeap (y : Nat) : Bool :=
  y % 4 == 0 && (y % 100 != 0 || y % 400 == 0)

/-- Days in a month of a given year. -/
def daysInMonth (y m : Nat) : Nat :=
  if m = 2 then (if isLeap y then 29 else 28)
  else if m = 4 ∨ m = 6 ∨ m = 9 ∨ m = 11 then 30
  else 31

/-- A date datetime.date accepts: year 1..9999, valid month and day. -/
def validDate (d : Date) : Prop :=
  1 ≤ d.year ∧ d.year ≤ 9999 ∧ 1 ≤ d.month ∧ d.month ≤ 12 ∧
    1 ≤ d.day ∧ d.day ≤ daysInMonth d.year d.month

instance (d : Date) : Decidable (validDate d) := by
  unfold validDate; infer_instance

/-- The day after a date. -/
def nextDay (d : Date) : Date :=
  if d.day < daysInMonth d.year d.month then ⟨d.year, d.month, d.day + 1⟩
  else if d.month < 12 then ⟨d.year, d.month + 1, 1⟩
  else ⟨d.year + 1, 1, 1⟩

/-- date + datetime.timedelta(days=n). -/
def addDays (d : Date) : Nat → Date
  | 0 => d
  | n + 1 => nextDay (addDays d n)

/-- Zero-padded 4-digit year characters (for years up to 9999). -/
def pad4 (n : Nat) : List Char :=
  [digitCh (n / 1000), digitCh (n / 100), digitCh (n / 10), digitCh n]

/-- Zero-padded 2-digit characters (for values up to 99). -/
def pad2 (n : Nat) : List Char :=
  [digitCh (n / 10), digitCh n]

/-- date.isoformat(): the YYYY-MM-DD string of a date. -/
def isoformat (d : Date) : String :=
  String.mk (pad4 d.year ++ '-' :: (pad2 d.month ++ '-' :: pad2 d.day))

/-- Split a character list at every dash. -/
def splitDash : List Char → List (List Char)
  | [] => [[]]
  | c :: rest =>
    if c = '-' then [] :: splitDash rest
    else
      match splitDash rest with
      | [] => [[c]]
      | g :: gs => (c :: g) :: gs

/-- datetime.date(y, m, d) as used after strptime matching: valid ranges give
the date, anything else raises (none). -/
def mkValidDate (y m d : Nat) : Option Date :=
  if 1 ≤ y ∧ 1 ≤ m ∧ m ≤ 12 ∧ 1 ≤ d ∧ d ≤ daysInMonth y m then some ⟨y, m, d⟩
  else none

/-- The digit-group checks of strptime "%Y-%m-%d": the year directive matches
exactly four digits, month and day one or two. -/
def parseDateParts (ys ms ds : List Char) : Option Date :=
  if ys.length = 4 ∧ ms ≠ [] ∧ ms.length ≤ 2 ∧ ds ≠ [] ∧ ds.length ≤ 2 then
    match digitsVal ys, digitsVal ms, digitsVal ds with
    | some y, some m, some d => mkValidDate y m d
    | _, _, _ => none
  else none

/-- datetime.datetime.strptime(s, "%Y-%m-%d").date(). -/
def parseDate (s : String) : Option Date :=
  match splitDash s.data with
  | [ys, ms, ds] => parseDateParts ys ms ds
  | _ => none

/-- One HTTP request issued through the connection collaborator. -/
inductive HttpCall where
  | make_get (url : String)
  | make_put (url : String) (payload : Jobj)
  | make_post (url : String) (payload : Jobj)

/-- The connection collaborator, reduced to its response oracle: every issued
call receives some parsed JSON answer. -/
structure Conn where
  respond : HttpCall → JSON

/-- A raised Python exception, as far as the module distinguishes them. -/
inductive PyErr where
  | nameError (name : String)
  | fieldNotFound (field : String)
  | typeError

/-- InvoiceItem: the typed fields kept alongside the raw document.
The category reference object is represented by the raw code value it wraps
(IncomeCategory(categories_api, code := v) with .code = v). -/
structure ItemState where
  jsondata : Jobj
  net : Dec
  gross : Dec
  category : Option JSON

/-- InvoiceItem._valid_keys. -/
def InvoiceItem.valid_keys : List String :=
  ["detailed_price", "category", "description"]

/-- Decimal() applied to detailed_price.get(k): absent keys give None, which
Decimal rejects (TypeError); strings are parsed; ints (and bools, which are
ints in Python) convert exactly. -/
def decimalOfOpt : Option JSON → Option Dec
  | some (.str s) => parseDec s
  | some (.num n) => some ⟨n, 0⟩
  | some (.bool b) => some ⟨if b then 1 else 0, 0⟩
  | _ => none

/-- The synthesized detailed_price document. -/
def emptyDetailedPrice : Jobj :=
  [("net", .str "0.00"), ("gross", .str "0.00")]

/-- The raw document after the detailed_price check of
_map_holvi_json_properties: a falsy or missing detailed_price is replaced by
the synthesized one. -/
def itemInitJd (kvs : Jobj) : Jobj :=
  if truthyOpt (getKey kvs "detailed_price") then kvs
  else setKey kvs "detailed_price" (.obj emptyDetailedPrice)

/-- The category reference built by _map_holvi_json_properties: a truthy
category code yields the reference object wrapping it, otherwise the field
stays unset. -/
def itemCategory (jd : Jobj) : Option JSON :=
  match getKey jd "category" with
  | some v => if truthy v then some v else none
  | none => none

/-- InvoiceItem(invoice, holvi_dict): stores the raw dict (JSONObject.__init__,
modelled from the spec: the JSON-backed record base wraps the raw key/value
document) and then runs _map_holvi_json_properties: synthesize detailed_price
when falsy, parse net and gross as exact decimals, build a category reference
from a truthy category code. none models a raised exception. -/
def InvoiceItem.construct (kvs : Jobj) : Option ItemState :=
  match getKey (itemInitJd kvs) "detailed_price" with
  | some (.obj dp) =>
    match decimalOfOpt (getKey dp "net"), decimalOfOpt (getKey dp "gross") with
    | some n, some g => some ⟨itemInitJd kvs, n, g, itemCategory (itemInitJd kvs)⟩
    | _, _ => none
  | _ => none

/-- InvoiceItem construction from one entry of the items array: the entry must
be a dict to be splatted into JSONObject.__init__. -/
def InvoiceItem.from_doc : JSON → Option ItemState
  | .obj kvs => InvoiceItem.construct kvs
  | _ => none

/-- InvoiceItem.to_holvi_dict: default falsy gross to net, ensure a
detailed_price dict, write quantized net/gross strings into it, write the
category code back, filter to the whitelisted keys, and delete vat_rate and
currency from the shared detailed_price dict. The returned filtered dict and
the stored raw document share that dict object, so the deletions land in both;
the first component is the mutated item state, the second the returned dict.
none models the TypeError raised when detailed_price is a truthy non-dict. -/
def itemGross (it : ItemState) : Dec :=
  if it.gross.mant = 0 then it.net else it.gross

/-- The successful body of InvoiceItem.to_holvi_dict once the stored
detailed_price dict dp is at hand (itemJd it below is the raw document after
the falsy-detailed_price check, dp its detailed_price dict). -/
def itemSerialize (it : ItemState) (jd dp : Jobj) : ItemState × Jobj :=
  let dp1 := setKey dp "net" (.str (decStr2 (quantHalfEven it.net)))
  let dp2 := setKey dp1 "gross" (.str (decStr2 (quantHalfEven (itemGross it))))
  let jd1 := setKey jd "detailed_price" (.obj dp2)
  let jd2 := match it.category with
    | some c => setKey jd1 "category" c
    | none => jd1
  let dp3 := delKey (delKey dp2 "vat_rate") "currency"
  let jd3 := setKey jd2 "detailed_price" (.obj dp3)
  ({ it with gross := itemGross it, jsondata := jd3 },
   jd3.filter (fun q => keyIn q.1 InvoiceItem.valid_keys))

/-- The raw document after to_holvi_dict's falsy-detailed_price check. -/
def itemJd (it : ItemState) : Jobj :=
  if truthyOpt (getKey it.jsondata "detailed_price") then it.jsondata
  else setKey it.jsondata "detailed_price" (.obj emptyDetailedPrice)

def InvoiceItem.to_holvi_dict (it : ItemState) : Option (ItemState × Jobj) :=
  match getKey (itemJd it) "detailed_price" with
  | some (.obj dp) => some (itemSerialize it (itemJd it) dp)
  | _ => none

/-- Invoice: the typed fields kept alongside the raw document. -/
structure InvoiceState where
  jsondata : Jobj
  items : List ItemState
  issue_date : Date
  due_date : Date

/-- Invoice._valid_keys. -/
def Invoice.valid_keys : List String :=
  ["currency", "issue_date", "due_date", "items", "receiver", "type",
   "number", "subject"]

/-- Invoice(api, jsondata) for a given JSON document (HolviObject.__init__,
modelled from the spec: construction with a JSON document stores it as the raw
document and maps it; the no-document branch is Invoice.init_empty below).
_map_holvi_json_properties wraps every entry of the items array into an
InvoiceItem in order and parses issue_date and due_date from YYYY-MM-DD
strings. none models a raised exception. -/
def Invoice.from_json (doc : JSON) : Option InvoiceState :=
  match doc with
  | .obj kvs =>
    match getKey kvs "items" with
    | some (.arr itemDocs) =>
      match omapM InvoiceItem.from_doc itemDocs with
      | some its =>
        match getKey kvs "issue_date", getKey kvs "due_date" with
        | some (.str si), some (.str sd) =>
          match parseDate si, parseDate sd with
          | some di, some dd => some ⟨kvs, its, di, dd⟩
          | _, _ => none
        | _, _ => none
      | none => none
    | _ => none
  | _ => none

/-- Invoice._init_empty: the default raw document of a fresh draft, with
today the date both datetime.now() calls observe. -/
def Invoice.init_empty (today : Date) : Jobj :=
  [("code", .null),
   ("currency", .str "EUR"),
   ("subject", .str ""),
   ("due_date", .str (isoformat (addDays today 14))),
   ("issue_date", .str (isoformat today)),
   ("number", .null),
   ("type", .str "outbound"),
   ("receiver", .obj
      [("name", .str ""), ("email", .str ""), ("street", .str ""),
       ("city", .str ""), ("postcode", .str ""), ("country", .str "")]),
   ("items", .arr [])]

/-- Invoice.to_holvi_dict: rebuild the raw items array from the typed items
(each serialization also mutates the item), write the dates back as isoformat
strings, and return the whitelist-filtered document. The first component is
the mutated invoice, the second the returned dict. -/
def Invoice.to_holvi_dict (inv : InvoiceState) : Option (InvoiceState × Jobj) :=
  match omapM InvoiceItem.to_holvi_dict inv.items with
  | some pairs =>
    let jd1 := setKey inv.jsondata "items" (.arr (pairs.map (fun p => JSON.obj p.2)))
    let jd2 := setKey jd1 "issue_date" (.str (isoformat inv.issue_date))
    let jd3 := setKey jd2 "due_date" (.str (isoformat inv.due_date))
    some ({ inv with jsondata := jd3, items := pairs.map Prod.fst },
          jd3.filter (fun q => keyIn q.1 Invoice.valid_keys))
  | none => none

/-- Invoice.save: raises when items is empty or subject is falsy (the source
writes raise HolviError(...), but invoicing.py never imports HolviError, so
evaluating that expression raises NameError instead); otherwise serializes and
issues one PUT to base_url + code + "/" when code is truthy, else one POST to
base_url, returning the Invoice constructed from the response. The attribute
reads of subject and code go through the JSON-backed record base (modelled
from the spec: a missing field raises the field-not-found error). Result:
(outcome, post-call state of self, trace of issued calls). -/
def Invoice.save (conn : Conn) (base : String) (inv : InvoiceState) :
    Except PyErr (Option InvoiceState) × InvoiceState × List HttpCall :=
  if inv.items.isEmpty then (.error (.nameError "HolviError"), inv, [])
  else
    match getKey inv.jsondata "subject" with
    | none => (.error (.fieldNotFound "subject"), inv, [])
    | some sv =>
      if truthy sv then
        match Invoice.to_holvi_dict inv with
        | none => (.error .typeError, inv, [])
        | some (inv2, send_json) =>
          match getKey inv2.jsondata "code" with
          | none => (.error (.fieldNotFound "code"), inv2, [])
          | some cv =>
            if truthy cv then
              let call := HttpCall.make_put (base ++ pyStr cv ++ "/") send_json
              (.ok (Invoice.from_json (conn.respond call)), inv2, [call])
            else
              let call := HttpCall.make_post base send_json
              (.ok (Invoice.from_json (conn.respond call)), inv2, [call])
      else (.error (.nameError "HolviError"), inv, [])

/-- Invoice.send: one PUT to base_url + code + "/status/" with the fixed
status payload; the response is read and discarded (the source leaves its
validation as a TODO) and no local state changes. -/
def Invoice.send (_conn : Conn) (base : String) (send_email : Bool)
    (inv : InvoiceState) :
    Except PyErr Unit × InvoiceState × List HttpCall :=
  match getKey inv.jsondata "code" with
  | none => (.error (.fieldNotFound "code"), inv, [])
  | some cv =>
    let call := HttpCall.make_put (base ++ pyStr cv ++ "/status/")
      [("mark_as_sent", .bool true), ("send_email", .bool send_email),
       ("active", .bool true)]
    (.ok (), inv, [call])

theorem getKey_mem {l : Jobj} {k : String} {v : JSON}
    (h : getKey l k = some v) : (k, v) ∈ l := by
  induction l
  case nil => exact Option.noConfusion h
  case cons p rest ih =>
    obtain ⟨p1, p2⟩ := p
    by_cases hp : p1 = k
    · rw [getKey, if_pos hp] at h
      obtain rfl := Option.some.inj h
      subst hp
      exact List.mem_cons_self _ _
    · rw [getKey, if_neg hp] at h
      exact List.mem_cons_of_mem _ (ih h)

theorem getKey_none_not_mem {l : Jobj} {k : String}
    (h : getKey l k = none) {v : JSON} : (k, v) ∉ l := by
  induction l with
  | nil => simp
  | cons p rest ih =>
    obtain ⟨p1, p2⟩ := p
    by_cases hp : p1 = k
    · rw [getKey, if_pos hp] at h
      exact absurd h (by simp)
    · rw [getKey, if_neg hp] at h
      intro hm
      rcases List.mem_cons.1 hm with h1 | h1
      · exact hp (congrArg Prod.fst h1).symm
      · exact ih h h1

theorem getKey_mapReplace_ne (l : Jobj) (k k' : String) (v : JSON)
    (h : k' ≠ k) :
    getKey (l.map (fun p => if p.1 = k then (k, v) else p)) k'
      = getKey l k' := by
  induction l with
  | nil => simp [getKey]
  | cons p rest ih =>
    obtain ⟨p1, p2⟩ := p
    by_cases hp : p1 = k
    · simp only [List.map_cons, if_pos hp, getKey]
      rw [if_neg (fun hh : k = k' => h hh.symm),
        if_neg (fun hh : p1 = k' => h (hp ▸ hh).symm)]
      exact ih
    · simp only [List.map_cons, if_neg hp, getKey]
      by_cases hp' : p1 = k'
      · rw [if_pos hp', if_pos hp']
      · rw [if_neg hp', if_neg hp']
        exact ih

theorem getKey_mapReplace_self (l : Jobj) (k : String) (v : JSON)
    (h : (getKey l k).isSome) :
    getKey (l.map (fun p => if p.1 = k then (k, v) else p)) k = some v := by
  induction l with
  | nil => simp [getKey] at h
  | cons p rest ih =>
    obtain ⟨p1, p2⟩ := p
    by_cases hp : p1 = k
    · simp [List.map_cons, if_pos hp, getKey]
    · rw [getKey, if_neg hp] at h
      simp only [List.map_cons, if_neg hp, getKey, if_neg hp]
      exact ih h

theorem getKey_append_one_ne (l : Jobj) (k k' : String) (v : JSON)
    (h : k' ≠ k) :
    getKey (l ++ [(k, v)]) k' = getKey l k' := by
  induction l with
  | nil => simp [getKey, if_neg (fun hh : k = k' => h hh.symm)]
  | cons p rest ih =>
    obtain ⟨p1, p2⟩ := p
    simp only [List.cons_append, getKey]
    by_cases hp' : p1 = k'
    · rw [if_pos hp', if_pos hp']
    · rw [if_neg hp', if_neg hp']
      exact ih

theorem getKey_append_one_self (l : Jobj) (k : String) (v : JSON)
    (h : getKey l k = none) :
    getKey (l ++ [(k, v)]) k = some v := by
  induction l with
  | nil => simp [getKey]
  | cons p rest ih =>
    obtain ⟨p1, p2⟩ := p
    by_cases hp : p1 = k
    · rw [getKey, if_pos hp] at h
      exact absurd h (by simp)
    · rw [getKey, if_neg hp] at h
      simp only [List.cons_append, getKey, if_neg hp]
      exact ih h

theorem getKey_setKey_self (l : Jobj) (k : String) (v : JSON) :
    getKey (setKey l k v) k = some v := by
  unfold setKey
  by_cases h : (getKey l k).isSome
  · rw [if_pos h]
    exact getKey_mapReplace_self l k v h
  · rw [if_neg h]
    refine getKey_append_one_self l k v ?_
    cases hk : getKey l k with
    | none => rfl
    | some w => rw [hk] at h; simp at h

theorem getKey_setKey_ne (l : Jobj) (k k' : String) (v : JSON)
    (h : k' ≠ k) : getKey (setKey l k v) k' = getKey l k' := by
  unfold setKey
  by_cases hs : (getKey l k).isSome
  · rw [if_pos hs]
    exact getKey_mapReplace_ne l k k' v h
  · rw [if_neg hs]
    exact getKey_append_one_ne l k k' v h

theorem keys_setKey (l : Jobj) (k : String) (v : JSON)
    (h : (getKey l k).isSome) :
    (setKey l k v).map Prod.fst = l.map Prod.fst := by
  unfold setKey
  rw [if_pos h, List.map_map]
  apply List.map_congr_left
  intro p _
  by_cases hp : p.1 = k
  · simp [Function.comp, if_pos hp, hp]
  · simp [Function.comp, if_neg hp]

theorem getKey_filterKeys (l : Jobj) (p : String → Bool) (k : String)
    (hp : p k = true) :
    getKey (l.filter (fun q => p q.1)) k = getKey l k := by
  induction l with
  | nil => simp [getKey]
  | cons q rest ih =>
    obtain ⟨q1, q2⟩ := q
    by_cases hq : q1 = k
    · have hpq : p q1 = true := by rw [hq]; exact hp
      simp [List.filter_cons, hpq, getKey, hq, hp]
    · simp only [List.filter_cons]
      cases hpq : p q1 with
      | true =>
        simp only [getKey, if_neg hq]
        exact ih
      | false => rw [getKey, if_neg hq]; exact ih

theorem mapFst_filter (l : Jobj) (p : String → Bool) :
    (l.filter (fun q => p q.1)).map Prod.fst
      = (l.map Prod.fst).filter p := by
  induction l with
  | nil => simp
  | cons q rest ih =>
    obtain ⟨q1, q2⟩ := q
    simp only [List.filter_cons, List.map_cons]
    cases hpq : p q1 with
    | true => simp [hpq, ih]
    | false => simp [hpq, ih]

theorem getKey_delKey_self (l : Jobj) (k : String) :
    getKey (delKey l k) k = none := by
  unfold delKey
  induction l with
  | nil => simp [getKey]
  | cons q rest ih =>
    obtain ⟨q1, q2⟩ := q
    by_cases hq : q1 = k
    · have hb : (q1 == k) = true := beq_iff_eq.2 hq
      simp only [List.filter_cons, hb, Bool.not_true]
      simpa using ih
    · have hb : (q1 == k) = false := beq_eq_false_iff_ne.2 hq
      simp only [List.filter_cons, hb, Bool.not_false]
      simpa [getKey, if_neg hq] using ih

theorem getKey_delKey_ne (l : Jobj) (k k' : String) (h : k' ≠ k) :
    getKey (delKey l k) k' = getKey l k' := by
  unfold delKey
  induction l with
  | nil => simp [getKey]
  | cons q rest ih =>
    obtain ⟨q1, q2⟩ := q
    by_cases hq : q1 = k
    · have hb : (q1 == k) = true := beq_iff_eq.2 hq
      have hq' : q1 ≠ k' := fun hh => h ((hq ▸ hh : k = k')).symm
      simp only [List.filter_cons, hb, Bool.not_true]
      simpa [getKey, if_neg hq'] using ih
    · have hb : (q1 == k) = false := beq_eq_false_iff_ne.2 hq
      simp only [List.filter_cons, hb, Bool.not_false]
      by_cases hq' : q1 = k'
      · simp [getKey, if_pos hq']
      · simpa [getKey, if_neg hq'] using ih

theorem setKey_mem_val {l : Jobj} {k : String} {v : JSON} {kv : String × JSON}
    (hm : kv ∈ setKey l k v) (hk : kv.1 = k) : kv.2 = v := by
  unfold setKey at hm
  by_cases hs : (getKey l k).isSome
  · rw [if_pos hs] at hm
    rcases List.mem_map.1 hm with ⟨q, _, hq⟩
    by_cases hqk : q.1 = k
    · rw [if_pos hqk] at hq
      rw [← hq]
    · rw [if_neg hqk] at hq
      rw [← hq] at hk
      exact absurd hk hqk
  · rw [if_neg hs] at hm
    have hnone : getKey l k = none := by
      cases hgk : getKey l k with
      | none => rfl
      | some w => rw [hgk] at hs; simp at hs
    rcases List.mem_append.1 hm with h1 | h1
    · obtain ⟨k1, v1⟩ := kv
      simp only at hk
      subst hk
      exact absurd h1 (getKey_none_not_mem hnone)
    · rw [List.mem_singleton.1 h1]

theorem chVal_digitCh (n : Nat) : chVal (digitCh n) = some (n % 10) := by
  have h : n % 10 < 10 := Nat.mod_lt _ (by norm_num)
  unfold digitCh
  revert h
  generalize n % 10 = k
  intro h
  interval_cases k <;> rfl

theorem digitCh_ne_dash (n : Nat) : digitCh n ≠ '-' := by
  have h : n % 10 < 10 := Nat.mod_lt _ (by norm_num)
  unfold digitCh
  revert h
  generalize n % 10 = k
  intro h
  interval_cases k <;> decide

theorem splitDash_no_dash (l : List Char) (h : ∀ c ∈ l, c ≠ '-') :
    splitDash l = [l] := by
  induction l with
  | nil => rfl
  | cons c rest ih =>
    have hc : c ≠ '-' := h c (List.mem_cons_self _ _)
    have hr := ih (fun x hx => h x (List.mem_cons_of_mem _ hx))
    simp [splitDash, hc, hr]

theorem splitDash_append_dash (l rest : List Char)
    (h : ∀ c ∈ l, c ≠ '-') :
    splitDash (l ++ '-' :: rest) = l :: splitDash rest := by
  induction l with
  | nil => simp [splitDash]
  | cons c l2 ih =>
    have hc : c ≠ '-' := h c (List.mem_cons_self _ _)
    have hr := ih (fun x hx => h x (List.mem_cons_of_mem _ hx))
    simp [splitDash, hc, hr]

theorem pad4_no_dash (n : Nat) : ∀ c ∈ pad4 n, c ≠ '-' := by
  intro c hc
  simp only [pad4, List.mem_cons, List.not_mem_nil, or_false] at hc
  rcases hc with h | h | h | h <;> (subst h; exact digitCh_ne_dash _)

theorem pad2_no_dash (n : Nat) : ∀ c ∈ pad2 n, c ≠ '-' := by
  intro c hc
  simp only [pad2, List.mem_cons, List.not_mem_nil, or_false] at hc
  rcases hc with h | h <;> (subst h; exact digitCh_ne_dash _)

theorem daysInMonth_le (y m : Nat) : daysInMonth y m ≤ 31 := by
  unfold daysInMonth
  split
  · split <;> omega
  · split <;> omega

theorem digitsVal_pad4 (n : Nat) (h : n ≤ 9999) :
    digitsVal (pad4 n) = some n := by
  simp only [pad4, digitsVal, List.foldl, chVal_digitCh, Option.some.injEq]
  omega

theorem digitsVal_pad2 (n : Nat) (h : n ≤ 99) :
    digitsVal (pad2 n) = some n := by
  simp only [pad2, digitsVal, List.foldl, chVal_digitCh, Option.some.injEq]
  omega

theorem parseDate_isoformat (d : Date) (h : validDate d) :
    parseDate (isoformat d) = some d := by
  obtain ⟨hy1, hy2, hm1, hm2, hd1, hd2⟩ := h
  have hd99 : d.day ≤ 99 :=
    le_trans hd2 (le_trans (daysInMonth_le _ _) (by norm_num))
  unfold parseDate isoformat
  rw [show (String.mk (pad4 d.year ++ '-' :: (pad2 d.month ++ '-' :: pad2 d.day))).data
      = pad4 d.year ++ '-' :: (pad2 d.month ++ '-' :: pad2 d.day) from rfl]
  rw [splitDash_append_dash _ _ (pad4_no_dash d.year),
    splitDash_append_dash _ _ (pad2_no_dash d.month),
    splitDash_no_dash _ (pad2_no_dash d.day)]
  show parseDateParts (pad4 d.year) (pad2 d.month) (pad2 d.day) = some d
  unfold parseDateParts
  rw [if_pos (by simp [pad4, pad2])]
  rw [digitsVal_pad4 _ hy2, digitsVal_pad2 _ (le_trans hm2 (by norm_num)),
    digitsVal_pad2 _ hd99]
  show mkValidDate d.year d.month d.day = some d
  unfold mkValidDate
  rw [if_pos ⟨hy1, hm1, hm2, hd1, hd2⟩]

theorem getKey_filter_keyIn (l : Jobj) (ks : List String) (k : String)
    (hp : keyIn k ks = true) :
    getKey (l.filter (fun q => keyIn q.1 ks)) k = getKey l k :=
  getKey_filterKeys l (fun x => keyIn x ks) k hp

theorem mapFst_filter_keyIn (l : Jobj) (ks : List String) :
    (l.filter (fun q => keyIn q.1 ks)).map Prod.fst
      = (l.map Prod.fst).filter (fun x => keyIn x ks) :=
  mapFst_filter l (fun x => keyIn x ks)

theorem toHolviDict_spec (it st : ItemState) (out : Jobj)
    (h : InvoiceItem.to_holvi_dict it = some (st, out)) :
    ∃ dp3 : Jobj,
      getKey st.jsondata "detailed_price" = some (.obj dp3) ∧
      getKey out "detailed_price" = some (.obj dp3) ∧
      getKey dp3 "net" = some (.str (decStr2 (quantHalfEven it.net))) ∧
      getKey dp3 "gross" = some (.str (decStr2 (quantHalfEven (itemGross it)))) ∧
      getKey dp3 "vat_rate" = none ∧
      getKey dp3 "currency" = none ∧
      st.net = it.net ∧ st.gross = itemGross it ∧ st.category = it.category ∧
      out = st.jsondata.filter (fun q => keyIn q.1 InvoiceItem.valid_keys) ∧
      (∀ c, it.category = some c → getKey st.jsondata "category" = some c) := by
  unfold InvoiceItem.to_holvi_dict at h
  split at h
  · rename_i dp heq
    have h2 : itemSerialize it (itemJd it) dp = (st, out) := Option.some.inj h
    have hst : st = (itemSerialize it (itemJd it) dp).1 := by rw [h2]
    have hout : out = (itemSerialize it (itemJd it) dp).2 := by rw [h2]
    subst hst
    subst hout
    simp only [itemSerialize]
    refine ⟨delKey (delKey (setKey (setKey dp "net"
        (.str (decStr2 (quantHalfEven it.net)))) "gross"
        (.str (decStr2 (quantHalfEven (itemGross it))))) "vat_rate") "currency",
      getKey_setKey_self _ _ _, ?_, ?_, ?_, ?_, ?_, by trivial, by trivial,
      by trivial, by trivial, ?_⟩
    · rw [getKey_filter_keyIn _ _ _ (by decide)]
      exact getKey_setKey_self _ _ _
    · rw [getKey_delKey_ne _ _ _ (by decide),
        getKey_delKey_ne _ _ _ (by decide),
        getKey_setKey_ne _ _ _ _ (by decide)]
      exact getKey_setKey_self _ _ _
    · rw [getKey_delKey_ne _ _ _ (by decide),
        getKey_delKey_ne _ _ _ (by decide)]
      exact getKey_setKey_self _ _ _
    · rw [getKey_delKey_ne _ _ _ (by decide)]
      exact getKey_delKey_self _ _
    · exact getKey_delKey_self _ _
    · intro c hc
      rw [hc]
      rw [getKey_setKey_ne _ _ _ _ (by decide)]
      exact getKey_setKey_self _ _ _
  · exact Option.noConfusion h

theorem construct_spec (kvs : Jobj) (it : ItemState)
    (h : InvoiceItem.construct kvs = some it) :
    ∃ dp, getKey it.jsondata "detailed_price" = some (.obj dp) ∧
      it.jsondata = itemInitJd kvs ∧
      decimalOfOpt (getKey dp "net") = some it.net ∧
      decimalOfOpt (getKey dp "gross") = some it.gross ∧
      it.category = itemCategory (itemInitJd kvs) := by
  unfold InvoiceItem.construct at h
  split at h
  · rename_i dp heq
    split at h
    · rename_i n g hn hgr
      have h2 := Option.some.inj h
      refine ⟨dp, ?_, ?_, ?_, ?_, ?_⟩ <;> rw [← h2]
      · exact heq
      · exact hn
      · exact hgr
    · exact Option.noConfusion h
  · exact Option.noConfusion h

theorem construct_serializable (kvs : Jobj) (it : ItemState)
    (h : InvoiceItem.construct kvs = some it) :
    ∃ r, InvoiceItem.to_holvi_dict it = some r := by
  obtain ⟨dp, hdp, -, -, -, -⟩ := construct_spec kvs it h
  unfold InvoiceItem.to_holvi_dict
  by_cases hdpe : dp.isEmpty = true
  · have ht : truthyOpt (some (.obj dp)) = false := by
      simp [truthyOpt, truthy, hdpe]
    have hjd : itemJd it = setKey it.jsondata "detailed_price" (.obj emptyDetailedPrice) := by
      unfold itemJd
      rw [hdp, ht]
      simp
    rw [hjd, getKey_setKey_self]
    exact ⟨_, rfl⟩
  · have ht : truthyOpt (some (.obj dp)) = true := by
      simp only [truthyOpt, truthy, Bool.not_eq_true'] at *
      simp [hdpe]
    have hjd : itemJd it = it.jsondata := by
      unfold itemJd
      rw [hdp, ht]
      simp
    rw [hjd, hdp]
    exact ⟨_, rfl⟩

theorem from_doc_serializable (j : JSON) (it : ItemState)
    (h : InvoiceItem.from_doc j = some it) :
    ∃ r, InvoiceItem.to_holvi_dict it = some r := by
  cases j with
  | obj kvs => exact construct_serializable kvs it h
  | null => exact Option.noConfusion h
  | bool b => exact Option.noConfusion h
  | str s => exact Option.noConfusion h
  | num n => exact Option.noConfusion h
  | arr l => exact Option.noConfusion h

theorem omapM_serializable (docs : List JSON) (its : List ItemState)
    (h : omapM InvoiceItem.from_doc docs = some its) :
    ∃ pairs, omapM InvoiceItem.to_holvi_dict its = some pairs := by
  induction docs generalizing its with
  | nil =>
    have h2 : ([] : List ItemState) = its := Option.some.inj h
    subst h2
    exact ⟨[], rfl⟩
  | cons doc docs2 ih =>
    unfold omapM at h
    cases hfd : InvoiceItem.from_doc doc with
    | none => rw [hfd] at h; exact Option.noConfusion h
    | some it =>
      cases hrest : omapM InvoiceItem.from_doc docs2 with
      | none => rw [hfd, hrest] at h; exact Option.noConfusion h
      | some rest =>
        rw [hfd, hrest] at h
        have h2 : it :: rest = its := Option.some.inj h
        subst h2
        obtain ⟨r, hr⟩ := from_doc_serializable doc it hfd
        obtain ⟨pairs, hp⟩ := ih rest hrest
        refine ⟨r :: pairs, ?_⟩
        unfold omapM
        rw [hr, hp]

theorem save_reduce (conn : Conn) (base : String)
    (inv inv2 : InvoiceState) (payload : Jobj) (sv cv : JSON)
    (h1 : inv.items.isEmpty = false)
    (h2 : getKey inv.jsondata "subject" = some sv)
    (h3 : truthy sv = true)
    (h4 : Invoice.to_holvi_dict inv = some (inv2, payload))
    (h5 : getKey inv2.jsondata "code" = some cv) :
    Invoice.save conn base inv =
      if truthy cv then
        (.ok (Invoice.from_json (conn.respond
            (.make_put (base ++ pyStr cv ++ "/") payload))), inv2,
         [.make_put (base ++ pyStr cv ++ "/") payload])
      else
        (.ok (Invoice.from_json (conn.respond (.make_post base payload))), inv2,
         [.make_post base payload]) := by
  unfold Invoice.save
  rw [if_neg (by simp [h1])]
  split
  · rename_i heq
    rw [h2] at heq
    exact Option.noConfusion heq
  · rename_i sv2 heq
    rw [h2] at heq
    obtain rfl := Option.some.inj heq
    rw [if_pos h3]
    split
    · rename_i heq2
      rw [h4] at heq2
      exact Option.noConfusion heq2
    · rename_i inv2' payload' heq2
      rw [h4] at heq2
      obtain ⟨rfl, rfl⟩ := Prod.mk.inj (Option.some.inj heq2)
      split
      · rename_i heq3
        rw [h5] at heq3
        exact Option.noConfusion heq3
      · rename_i cv2 heq3
        rw [h5] at heq3
        obtain rfl := Option.some.inj heq3
        rfl

/-- C2: save() on an Invoice with empty items, or with a present falsy/empty
subject, raises locally before serializing and performs no network call (empty
trace, state unchanged). The exception actually raised is a NameError: the
source executes raise HolviError(...) but invoicing.py never imports
HolviError, so name resolution fails; the domain validation error the claim
names is the intent, not the behaviour. -/
theorem C2_save_validation_no_network (conn : Conn) (base : String)
    (inv : InvoiceState)
    (h : inv.items = [] ∨
      (∃ sv, getKey inv.jsondata "subject" = some sv ∧ truthy sv = false)) :
    Invoice.save conn base inv = (.error (.nameError "HolviError"), inv, []) := by
  unfold Invoice.save
  rcases h with h | ⟨sv, hs, ht⟩
  · rw [if_pos (by rw [h]; rfl)]
  · by_cases hi : inv.items.isEmpty = true
    · rw [if_pos hi]
    · rw [if_neg hi]
      split
      · rename_i heq
        rw [hs] at heq
        exact Option.noConfusion heq
      · rename_i sv2 heq
        rw [hs] at heq
        obtain rfl := Option.some.inj heq
        rw [if_neg (by simp [ht])]

theorem C2_save_validation_no_network_witness :
    Invoice.save ⟨fun _ => .null⟩ "B/"
      ⟨[("subject", .str "")], [], ⟨2023, 1, 1⟩, ⟨2023, 1, 15⟩⟩ =
      (.error (.nameError "HolviError"),
       ⟨[("subject", .str "")], [], ⟨2023, 1, 1⟩, ⟨2023, 1, 15⟩⟩, []) :=
  C2_save_validation_no_network ⟨fun _ => .null⟩ "B/" _ (Or.inl rfl)

/-- C3: save() on an Invoice passing validation serializes once via
to_holvi_dict and issues exactly one call: a PUT to base_url + code + "/" with
the serialized payload when code is a nonempty string, a POST to base_url with
that payload when code is None; in both cases the outcome is the Invoice newly
constructed from the document the remote call returned, and the recorded post
state is the serialization-mutated invoice. -/
theorem C3_save_dispatch (conn : Conn) (base : String)
    (inv inv2 : InvoiceState) (payload : Jobj) (sv cv : JSON)
    (h1 : inv.items ≠ [])
    (h2 : getKey inv.jsondata "subject" = some sv)
    (h3 : truthy sv = true)
    (h4 : Invoice.to_holvi_dict inv = some (inv2, payload))
    (h5 : getKey inv2.jsondata "code" = some cv) :
    (∀ c : String, cv = .str c → c ≠ "" →
      Invoice.save conn base inv =
        (.ok (Invoice.from_json (conn.respond
            (.make_put (base ++ c ++ "/") payload))), inv2,
         [.make_put (base ++ c ++ "/") payload])) ∧
    (cv = .null →
      Invoice.save conn base inv =
        (.ok (Invoice.from_json (conn.respond (.make_post base payload))), inv2,
         [.make_post base payload])) := by
  have h1' : inv.items.isEmpty = false := by
    cases hi : inv.items.isEmpty with
    | false => rfl
    | true => exact absurd (List.isEmpty_iff.1 hi) h1
  constructor
  · intro c hcv hcne
    subst hcv
    rw [save_reduce conn base inv inv2 payload sv _ h1' h2 h3 h4 h5]
    rw [if_pos (by simp [truthy, hcne])]
    rfl
  · intro hcv
    subst hcv
    rw [save_reduce conn base inv inv2 payload sv _ h1' h2 h3 h4 h5]
    rw [if_neg (by simp [truthy])]

theorem C3_save_dispatch_witness :
    Invoice.save ⟨fun _ => .null⟩ "B/"
      ⟨[("code", .str "a"), ("subject", .str "S"), ("items", .arr []),
        ("issue_date", .str "2023-01-27"), ("due_date", .str "2023-02-10")],
       [⟨[("detailed_price", .obj [("net", .str "1.00"), ("gross", .str "1.00")])],
         ⟨100, 2⟩, ⟨100, 2⟩, none⟩], ⟨2023, 1, 27⟩, ⟨2023, 2, 10⟩⟩ =
      (.ok none,
       ⟨[("code", .str "a"), ("subject", .str "S"),
         ("items", .arr [.obj [("detailed_price",
            .obj [("net", .str "1.00"), ("gross", .str "1.00")])]]),
         ("issue_date", .str "2023-01-27"), ("due_date", .str "2023-02-10")],
        [⟨[("detailed_price", .obj [("net", .str "1.00"), ("gross", .str "1.00")])],
          ⟨100, 2⟩, ⟨100, 2⟩, none⟩], ⟨2023, 1, 27⟩, ⟨2023, 2, 10⟩⟩,
       [.make_put "B/a/"
          [("subject", .str "S"),
           ("items", .arr [.obj [("detailed_price",
              .obj [("net", .str "1.00"), ("gross", .str "1.00")])]]),
           ("issue_date", .str "2023-01-27"), ("due_date", .str "2023-02-10")]]) :=
  (C3_save_dispatch ⟨fun _ => .null⟩ "B/"
      ⟨[("code", .str "a"), ("subject", .str "S"), ("items", .arr []),
        ("issue_date", .str "2023-01-27"), ("due_date", .str "2023-02-10")],
       [⟨[("detailed_price", .obj [("net", .str "1.00"), ("gross", .str "1.00")])],
         ⟨100, 2⟩, ⟨100, 2⟩, none⟩], ⟨2023, 1, 27⟩, ⟨2023, 2, 10⟩⟩
      ⟨[("code", .str "a"), ("subject", .str "S"),
        ("items", .arr [.obj [("detailed_price",
           .obj [("net", .str "1.00"), ("gross", .str "1.00")])]]),
        ("issue_date", .str "2023-01-27"), ("due_date", .str "2023-02-10")],
       [⟨[("detailed_price", .obj [("net", .str "1.00"), ("gross", .str "1.00")])],
         ⟨100, 2⟩, ⟨100, 2⟩, none⟩], ⟨2023, 1, 27⟩, ⟨2023, 2, 10⟩⟩
      [("subject", .str "S"),
       ("items", .arr [.obj [("detailed_price",
          .obj [("net", .str "1.00"), ("gross", .str "1.00")])]]),
       ("issue_date", .str "2023-01-27"), ("due_date", .str "2023-02-10")]
      (.str "S") (.str "a")
      (List.cons_ne_nil _ _) rfl rfl rfl rfl).1 "a" rfl (by decide)

/-- C8: send(send_email) on an Invoice whose code is a string issues exactly
one PUT to base_url + code + "/status/" with the payload
mark_as_sent = true, send_email = the argument, active = true, and leaves the
invoice state (typed fields and raw document) unchanged. -/
theorem C8_send_status (conn : Conn) (base : String) (send_email : Bool)
    (inv : InvoiceState) (c : String)
    (h : getKey inv.jsondata "code" = some (.str c)) :
    Invoice.send conn base send_email inv =
      (.ok (), inv,
       [.make_put (base ++ c ++ "/status/")
          [("mark_as_sent", .bool true), ("send_email", .bool send_email),
           ("active", .bool true)]]) := by
  unfold Invoice.send
  split
  · rename_i heq
    rw [h] at heq
    exact Option.noConfusion heq
  · rename_i cv heq
    rw [h] at heq
    obtain rfl := Option.some.inj heq
    rfl

theorem C8_send_status_witness :
    Invoice.send ⟨fun _ => .null⟩ "B/" false
      ⟨[("code", .str "ab")], [], ⟨2023, 1, 1⟩, ⟨2023, 1, 15⟩⟩ =
      (.ok (), ⟨[("code", .str "ab")], [], ⟨2023, 1, 1⟩, ⟨2023, 1, 15⟩⟩,
       [.make_put "B/ab/status/"
          [("mark_as_sent", .bool true), ("send_email", .bool false),
           ("active", .bool true)]]) :=
  C8_send_status ⟨fun _ => .null⟩ "B/" false _ "ab" rfl

/-- C6: the default document of an empty-constructed Invoice has currency
"EUR", type "outbound", code None, empty items (and empty subject), its
issue_date is today's isoformat string, and its due_date string parses back to
exactly issue_date plus 14 days. -/
theorem C6_default_due_date (today : Date)
    (h1 : validDate today) (h2 : validDate (addDays today 14)) :
    getKey (Invoice.init_empty today) "currency" = some (.str "EUR") ∧
    getKey (Invoice.init_empty today) "type" = some (.str "outbound") ∧
    getKey (Invoice.init_empty today) "code" = some .null ∧
    getKey (Invoice.init_empty today) "items" = some (.arr []) ∧
    getKey (Invoice.init_empty today) "subject" = some (.str "") ∧
    getKey (Invoice.init_empty today) "issue_date"
      = some (.str (isoformat today)) ∧
    getKey (Invoice.init_empty today) "due_date"
      = some (.str (isoformat (addDays today 14))) ∧
    parseDate (isoformat today) = some today ∧
    parseDate (isoformat (addDays today 14)) = some (addDays today 14) := by
  exact ⟨rfl, rfl, rfl, rfl, rfl, rfl, rfl,
    parseDate_isoformat _ h1, parseDate_isoformat _ h2⟩

theorem C6_default_due_date_witness :
    getKey (Invoice.init_empty ⟨2023, 1, 27⟩) "currency" = some (.str "EUR") ∧
    getKey (Invoice.init_empty ⟨2023, 1, 27⟩) "type" = some (.str "outbound") ∧
    getKey (Invoice.init_empty ⟨2023, 1, 27⟩) "code" = some .null ∧
    getKey (Invoice.init_empty ⟨2023, 1, 27⟩) "items" = some (.arr []) ∧
    getKey (Invoice.init_empty ⟨2023, 1, 27⟩) "subject" = some (.str "") ∧
    getKey (Invoice.init_empty ⟨2023, 1, 27⟩) "issue_date"
      = some (.str (isoformat ⟨2023, 1, 27⟩)) ∧
    getKey (Invoice.init_empty ⟨2023, 1, 27⟩) "due_date"
      = some (.str (isoformat (addDays ⟨2023, 1, 27⟩ 14))) ∧
    parseDate (isoformat ⟨2023, 1, 27⟩) = some ⟨2023, 1, 27⟩ ∧
    parseDate (isoformat (addDays ⟨2023, 1, 27⟩ 14))
      = some (addDays ⟨2023, 1, 27⟩ 14) :=
  C6_default_due_date ⟨2023, 1, 27⟩ (by decide) (by decide)

/-- C5: every key of an InvoiceItem.to_holvi_dict() result is one of
detailed_price, category, description, and the returned detailed_price dict
carries neither vat_rate nor currency, whatever the raw document contained. -/
theorem C5_item_write_filtering (it st : ItemState) (out : Jobj)
    (h : InvoiceItem.to_holvi_dict it = some (st, out)) :
    (∀ kv : String × JSON, kv ∈ out →
      kv.1 = "detailed_price" ∨ kv.1 = "category" ∨ kv.1 = "description") ∧
    (∀ dp, getKey out "detailed_price" = some (.obj dp) →
      getKey dp "vat_rate" = none ∧ getKey dp "currency" = none) := by
  obtain ⟨dp3, hst, hout, hnet, hgross, hvat, hcur, hn, hg, hc, houtf, hcat⟩ :=
    toHolviDict_spec it st out h
  constructor
  · intro kv hm
    rw [houtf] at hm
    have hkv := (List.mem_filter.1 hm).2
    simp only [keyIn, InvoiceItem.valid_keys, List.any_cons, List.any_nil,
      Bool.or_eq_true, beq_iff_eq, Bool.false_eq_true, or_false] at hkv
    exact hkv
  · intro dp hdp
    rw [hout] at hdp
    obtain rfl := JSON.obj.inj (Option.some.inj hdp)
    exact ⟨hvat, hcur⟩

theorem C5_item_write_filtering_witness :
    (∀ kv : String × JSON,
      kv ∈ ([("detailed_price", .obj [("net", .str "1.50"), ("gross", .str "2.00")]),
             ("category", .str "C"), ("description", .str "d")] : Jobj) →
      kv.1 = "detailed_price" ∨ kv.1 = "category" ∨ kv.1 = "description") ∧
    (∀ dp, getKey [("detailed_price", .obj [("net", .str "1.50"), ("gross", .str "2.00")]),
             ("category", .str "C"), ("description", .str "d")] "detailed_price"
        = some (.obj dp) →
      getKey dp "vat_rate" = none ∧ getKey dp "currency" = none) :=
  C5_item_write_filtering
    ⟨[("detailed_price", .obj [("net", .str "1.50"), ("gross", .str "2.00"),
        ("vat_rate", .str "24"), ("currency", .str "EUR")]),
      ("category", .str "C"), ("description", .str "d")],
     ⟨150, 2⟩, ⟨200, 2⟩, some (.str "C")⟩
    ⟨[("detailed_price", .obj [("net", .str "1.50"), ("gross", .str "2.00")]),
      ("category", .str "C"), ("description", .str "d")],
     ⟨150, 2⟩, ⟨200, 2⟩, some (.str "C")⟩
    [("detailed_price", .obj [("net", .str "1.50"), ("gross", .str "2.00")]),
     ("category", .str "C"), ("description", .str "d")]
    rfl

/-- C9: a falsy gross - any zero decimal, not only an unset one - is
overwritten with net before quantizing: the item state's gross becomes net and
the serialized detailed_price.gross is the quantized net. -/
theorem C9_falsy_gross_overwritten (it st : ItemState) (out : Jobj)
    (hz : it.gross.mant = 0)
    (h : InvoiceItem.to_holvi_dict it = some (st, out)) :
    st.gross = it.net ∧
    ∃ dp, getKey out "detailed_price" = some (.obj dp) ∧
      getKey dp "gross" = some (.str (decStr2 (quantHalfEven it.net))) := by
  obtain ⟨dp3, hst, hout, hnet, hgross, hvat, hcur, hn, hg, hc, houtf, hcat⟩ :=
    toHolviDict_spec it st out h
  have hig : itemGross it = it.net := by unfold itemGross; rw [if_pos hz]
  refine ⟨by rw [hg, hig], dp3, hout, by rw [hgross, hig]⟩

theorem C9_falsy_gross_overwritten_witness :
    ((⟨[("detailed_price", .obj [("net", .str "10.00"), ("gross", .str "10.00")])],
       ⟨10, 0⟩, ⟨10, 0⟩, none⟩ : ItemState).gross
        = (⟨[("detailed_price", .obj [("net", .str "10"), ("gross", .str "0.00")])],
           ⟨10, 0⟩, ⟨0, 2⟩, none⟩ : ItemState).net ∧
     ∃ dp, getKey [("detailed_price",
          .obj [("net", .str "10.00"), ("gross", .str "10.00")])] "detailed_price"
        = some (.obj dp) ∧
       getKey dp "gross" = some (.str (decStr2 (quantHalfEven ⟨10, 0⟩)))) ∧
    decStr2 (quantHalfEven ⟨10, 0⟩) = "10.00" :=
  ⟨C9_falsy_gross_overwritten
    ⟨[("detailed_price", .obj [("net", .str "10"), ("gross", .str "0.00")])],
     ⟨10, 0⟩, ⟨0, 2⟩, none⟩
    ⟨[("detailed_price", .obj [("net", .str "10.00"), ("gross", .str "10.00")])],
     ⟨10, 0⟩, ⟨10, 0⟩, none⟩
    [("detailed_price", .obj [("net", .str "10.00"), ("gross", .str "10.00")])]
    rfl rfl, rfl⟩

/-- C10: to_holvi_dict() is not a pure read: the stored raw document's
detailed_price afterwards is the very dict returned (vat_rate and currency
deleted from it, net/gross rewritten as quantized strings), the item's gross
field is overwritten by the falsy-gross default, and a set category is written
back into the stored document. -/
theorem C10_to_holvi_dict_mutates (it st : ItemState) (out : Jobj)
    (h : InvoiceItem.to_holvi_dict it = some (st, out)) :
    getKey st.jsondata "detailed_price" = getKey out "detailed_price" ∧
    (∀ dp, getKey st.jsondata "detailed_price" = some (.obj dp) →
      getKey dp "vat_rate" = none ∧ getKey dp "currency" = none) ∧
    (∃ dp, getKey st.jsondata "detailed_price" = some (.obj dp) ∧
      getKey dp "net" = some (.str (decStr2 (quantHalfEven it.net))) ∧
      getKey dp "gross" = some (.str (decStr2 (quantHalfEven (itemGross it))))) ∧
    st.gross = itemGross it ∧
    (∀ c, it.category = some c → getKey st.jsondata "category" = some c) := by
  obtain ⟨dp3, hst, hout, hnet, hgross, hvat, hcur, hn, hg, hc, houtf, hcat⟩ :=
    toHolviDict_spec it st out h
  refine ⟨by rw [hst, hout], ?_, ⟨dp3, hst, hnet, hgross⟩, hg, hcat⟩
  intro dp hdp
  rw [hst] at hdp
  obtain rfl := JSON.obj.inj (Option.some.inj hdp)
  exact ⟨hvat, hcur⟩

/-- C4: net and gross serialize as strings quantized to exactly two decimal
digits by exact decimal arithmetic: an item built from an empty dict with net
set to Decimal(10) serializes with detailed_price net = gross = "10.00";
Decimal("19.999") parses exactly and quantizes to "20.00" (half-even, the
decimal default); in general the serialized strings are the quantized
mantissas, and every such string ends in a dot followed by exactly two digit
characters. -/
theorem C4_decimal_serialization :
    (∀ it0 : ItemState, InvoiceItem.construct [] = some it0 →
      ∃ st out dp,
        InvoiceItem.to_holvi_dict { it0 with net := ⟨10, 0⟩ } = some (st, out) ∧
        getKey out "detailed_price" = some (.obj dp) ∧
        getKey dp "net" = some (.str "10.00") ∧
        getKey dp "gross" = some (.str "10.00")) ∧
    parseDec "19.999" = some ⟨19999, 3⟩ ∧
    decStr2 (quantHalfEven ⟨19999, 3⟩) = "20.00" ∧
    (∀ it st out, InvoiceItem.to_holvi_dict it = some (st, out) →
      ∃ dp, getKey out "detailed_price" = some (.obj dp) ∧
        getKey dp "net" = some (.str (decStr2 (quantHalfEven it.net))) ∧
        getKey dp "gross"
          = some (.str (decStr2 (quantHalfEven (itemGross it))))) ∧
    (∀ m : Int, ∃ pre,
      decStr2 m = pre
        ++ String.mk ['.', digitCh (m.natAbs / 10), digitCh m.natAbs] ∧
      (chVal (digitCh (m.natAbs / 10))).isSome = true ∧
      (chVal (digitCh m.natAbs)).isSome = true) := by
  refine ⟨?_, rfl, rfl, ?_, ?_⟩
  · intro it0 h0
    obtain rfl := Option.some.inj h0
    exact ⟨_, _, _, rfl, rfl, rfl, rfl⟩
  · intro it st out h
    obtain ⟨dp3, hst, hout, hnet, hgross, hvat, hcur, hn, hg, hc, houtf, hcat⟩ :=
      toHolviDict_spec it st out h
    exact ⟨dp3, hout, hnet, hgross⟩
  · intro m
    refine ⟨(if m < 0 then "-" else "") ++ toString (m.natAbs / 100), rfl, ?_, ?_⟩
    · rw [chVal_digitCh]; rfl
    · rw [chVal_digitCh]; rfl

theorem C4_decimal_serialization_witness :
    ∃ st out dp,
      InvoiceItem.to_holvi_dict
        { (⟨[("detailed_price", .obj [("net", .str "0.00"), ("gross", .str "0.00")])],
            ⟨0, 2⟩, ⟨0, 2⟩, none⟩ : ItemState) with net := ⟨10, 0⟩ } = some (st, out) ∧
      getKey out "detailed_price" = some (.obj dp) ∧
      getKey dp "net" = some (.str "10.00") ∧
      getKey dp "gross" = some (.str "10.00") :=
  C4_decimal_serialization.1
    ⟨[("detailed_price", .obj [("net", .str "0.00"), ("gross", .str "0.00")])],
     ⟨0, 2⟩, ⟨0, 2⟩, none⟩ rfl

/-- C7: constructing an InvoiceItem from a raw dict synthesizes a
detailed_price of net = gross = "0.00" when none is present, parses net and
gross as exact decimals from the detailed_price strings, builds a category
reference from a present category code string, and raises nothing when the
category is absent - it just stays unset. -/
theorem C7_item_mapping :
    (∀ kvs : Jobj, getKey kvs "detailed_price" = none →
      getKey kvs "category" = none →
      ∃ it, InvoiceItem.construct kvs = some it ∧
        it.net = ⟨0, 2⟩ ∧ it.gross = ⟨0, 2⟩ ∧ it.category = none ∧
        getKey it.jsondata "detailed_price" = some (.obj emptyDetailedPrice)) ∧
    (∀ kvs dp s1 s2 n g it, getKey kvs "detailed_price" = some (.obj dp) →
      truthy (.obj dp) = true →
      getKey dp "net" = some (.str s1) → getKey dp "gross" = some (.str s2) →
      parseDec s1 = some n → parseDec s2 = some g →
      InvoiceItem.construct kvs = some it → it.net = n ∧ it.gross = g) ∧
    (∀ kvs c it, getKey kvs "category" = some (.str c) → c ≠ "" →
      InvoiceItem.construct kvs = some it → it.category = some (.str c)) := by
  have hcatkey : ∀ kvs : Jobj,
      getKey (itemInitJd kvs) "category" = getKey kvs "category" := by
    intro kvs
    unfold itemInitJd
    split
    · rfl
    · exact getKey_setKey_ne _ _ _ _ (by decide)
  refine ⟨?_, ?_, ?_⟩
  · intro kvs h1 h2
    have hjd : itemInitJd kvs
        = setKey kvs "detailed_price" (.obj emptyDetailedPrice) := by
      unfold itemInitJd
      rw [h1]
      rfl
    have hget : getKey (itemInitJd kvs) "detailed_price"
        = some (.obj emptyDetailedPrice) := by
      rw [hjd]; exact getKey_setKey_self _ _ _
    have hic : itemCategory (itemInitJd kvs) = none := by
      unfold itemCategory
      rw [hcatkey kvs, h2]
    refine ⟨⟨itemInitJd kvs, ⟨0, 2⟩, ⟨0, 2⟩, none⟩, ?_, rfl, rfl, rfl, hget⟩
    unfold InvoiceItem.construct
    rw [hget]
    show some (⟨itemInitJd kvs, ⟨0, 2⟩, ⟨0, 2⟩, itemCategory (itemInitJd kvs)⟩
      : ItemState) = _
    rw [hic]
  · intro kvs dp s1 s2 n g it h1 h2 h3 h4 h5 h6 h7
    have hjd : itemInitJd kvs = kvs := by
      unfold itemInitJd
      rw [h1]
      rw [if_pos (show truthyOpt (some (.obj dp)) = true from h2)]
    obtain ⟨dp', hdp', hjd', hn', hg', hcat'⟩ := construct_spec kvs it h7
    rw [hjd', hjd, h1] at hdp'
    obtain rfl := JSON.obj.inj (Option.some.inj hdp')
    rw [h3] at hn'
    rw [h4] at hg'
    have hn2 : parseDec s1 = some it.net := hn'
    have hg2 : parseDec s2 = some it.gross := hg'
    rw [h5] at hn2
    rw [h6] at hg2
    exact ⟨(Option.some.inj hn2).symm, (Option.some.inj hg2).symm⟩
  · intro kvs c it h1 h2 h3
    obtain ⟨dp', hdp', hjd', hn', hg', hcat'⟩ := construct_spec kvs it h3
    rw [hcat']
    unfold itemCategory
    rw [hcatkey kvs, h1]
    show (if truthy (JSON.str c) = true then some (JSON.str c) else none)
      = some (JSON.str c)
    rw [if_pos (by simp [truthy, h2])]

theorem C7_item_mapping_witness :
    (∃ it, InvoiceItem.construct [("description", .str "d")] = some it ∧
      it.net = ⟨0, 2⟩ ∧ it.gross = ⟨0, 2⟩ ∧ it.category = none ∧
      getKey it.jsondata "detailed_price" = some (.obj emptyDetailedPrice)) ∧
    (∀ it, InvoiceItem.construct
        [("detailed_price", .obj [("net", .str "1.50"), ("gross", .str "2.25")])]
        = some it → it.net = ⟨150, 2⟩ ∧ it.gross = ⟨225, 2⟩) ∧
    (∀ it, InvoiceItem.construct
        [("detailed_price", .obj [("net", .str "1.50"), ("gross", .str "2.25")]),
         ("category", .str "C")] = some it → it.category = some (.str "C")) :=
  ⟨C7_item_mapping.1 [("description", .str "d")] rfl rfl,
   fun it h => C7_item_mapping.2.1
     [("detailed_price", .obj [("net", .str "1.50"), ("gross", .str "2.25")])]
     [("net", .str "1.50"), ("gross", .str "2.25")]
     "1.50" "2.25" ⟨150, 2⟩ ⟨225, 2⟩ it rfl rfl rfl rfl rfl rfl h,
   fun it h => C7_item_mapping.2.2
     [("detailed_price", .obj [("net", .str "1.50"), ("gross", .str "2.25")]),
      ("category", .str "C")] "C" it rfl (by decide) h⟩

/-- C1: an Invoice built from a valid JSON document (items array present,
issue_date and due_date strict zero-padded YYYY-MM-DD strings) serializes via
to_holvi_dict() to a dict whose issue_date and due_date equal the original
strings, whose keys are exactly the whitelisted top-level keys that were
present (in document order), and whose items array is the in-order
serialization of the items constructed from the input document's items. -/
theorem C1_invoice_roundtrip (kvs : Jobj) (inv : InvoiceState)
    (itemDocs : List JSON) (si sd : String)
    (hitems : getKey kvs "items" = some (.arr itemDocs))
    (hsi : getKey kvs "issue_date" = some (.str si))
    (hsd : getKey kvs "due_date" = some (.str sd))
    (hsi2 : (parseDate si).map isoformat = some si)
    (hsd2 : (parseDate sd).map isoformat = some sd)
    (hinv : Invoice.from_json (.obj kvs) = some inv) :
    ∃ inv2 out pairs,
      Invoice.to_holvi_dict inv = some (inv2, out) ∧
      getKey out "issue_date" = some (.str si) ∧
      getKey out "due_date" = some (.str sd) ∧
      out.map Prod.fst
        = (kvs.map Prod.fst).filter (fun k => keyIn k Invoice.valid_keys) ∧
      omapM InvoiceItem.from_doc itemDocs = some inv.items ∧
      omapM InvoiceItem.to_holvi_dict inv.items = some pairs ∧
      getKey out "items" = some (.arr (pairs.map (fun p => JSON.obj p.2))) := by
  unfold Invoice.from_json at hinv
  split at hinv
  · rename_i kvs2 heq0
    obtain rfl := JSON.obj.inj heq0
    split at hinv
    · rename_i itemDocs' heq1
      rw [hitems] at heq1
      obtain rfl := JSON.arr.inj (Option.some.inj heq1)
      split at hinv
      · rename_i its homapM
        split at hinv
        · rename_i si' sd' heqi heqd
          rw [hsi] at heqi
          obtain rfl := JSON.str.inj (Option.some.inj heqi)
          rw [hsd] at heqd
          obtain rfl := JSON.str.inj (Option.some.inj heqd)
          split at hinv
          · rename_i di dd hpi hpd
            obtain rfl := Option.some.inj hinv
            rw [hpi, Option.map_some'] at hsi2
            have hiso_i := Option.some.inj hsi2
            rw [hpd, Option.map_some'] at hsd2
            have hiso_d := Option.some.inj hsd2
            obtain ⟨pairs, hpairs⟩ := omapM_serializable itemDocs its homapM
            have hthd : Invoice.to_holvi_dict ⟨kvs, its, di, dd⟩
                = some
                  (⟨setKey (setKey (setKey kvs "items"
                        (.arr (pairs.map (fun p => JSON.obj p.2))))
                      "issue_date" (.str (isoformat di)))
                      "due_date" (.str (isoformat dd)),
                    pairs.map Prod.fst, di, dd⟩,
                   (setKey (setKey (setKey kvs "items"
                        (.arr (pairs.map (fun p => JSON.obj p.2))))
                      "issue_date" (.str (isoformat di)))
                      "due_date" (.str (isoformat dd))).filter
                     (fun q => keyIn q.1 Invoice.valid_keys)) := by
              unfold Invoice.to_holvi_dict
              rw [show (⟨kvs, its, di, dd⟩ : InvoiceState).items = its from rfl,
                hpairs]
            refine ⟨_, _, pairs, hthd, ?_, ?_, ?_, homapM, hpairs, ?_⟩
            · rw [getKey_filter_keyIn _ _ _ (by decide),
                getKey_setKey_ne _ _ _ _ (by decide), getKey_setKey_self,
                hiso_i]
            · rw [getKey_filter_keyIn _ _ _ (by decide), getKey_setKey_self,
                hiso_d]
            · rw [mapFst_filter_keyIn]
              have k1 : (setKey kvs "items"
                  (.arr (pairs.map (fun p => JSON.obj p.2)))).map Prod.fst
                  = kvs.map Prod.fst :=
                keys_setKey _ _ _ (by rw [hitems]; rfl)
              have hp2 : (getKey (setKey kvs "items"
                  (.arr (pairs.map (fun p => JSON.obj p.2))))
                  "issue_date").isSome := by
                rw [getKey_setKey_ne _ _ _ _ (by decide), hsi]; rfl
              have k2 := keys_setKey (setKey kvs "items"
                  (.arr (pairs.map (fun p => JSON.obj p.2)))) "issue_date"
                (.str (isoformat di)) hp2
              have hp3 : (getKey (setKey (setKey kvs "items"
                  (.arr (pairs.map (fun p => JSON.obj p.2))))
                  "issue_date" (.str (isoformat di))) "due_date").isSome := by
                rw [getKey_setKey_ne _ _ _ _ (by decide),
                  getKey_setKey_ne _ _ _ _ (by decide), hsd]
                rfl
              have k3 := keys_setKey (setKey (setKey kvs "items"
                  (.arr (pairs.map (fun p => JSON.obj p.2))))
                  "issue_date" (.str (isoformat di))) "due_date"
                (.str (isoformat dd)) hp3
              rw [k3, k2, k1]
            · rw [getKey_filter_keyIn _ _ _ (by decide),
                getKey_setKey_ne _ _ _ _ (by decide),
                getKey_setKey_ne _ _ _ _ (by decide), getKey_setKey_self]
          · exact Option.noConfusion hinv
        · exact Option.noConfusion hinv
      · exact Option.noConfusion hinv
    · exact Option.noConfusion hinv
  · rename_i x hx
    exact (hx kvs rfl).elim

theorem C1_invoice_roundtrip_witness :
    ∃ inv2 out pairs,
      Invoice.to_holvi_dict
        ⟨[("code", .str "X"), ("currency", .str "EUR"), ("subject", .str "T"),
          ("due_date", .str "2023-02-10"), ("issue_date", .str "2023-01-27"),
          ("number", .null), ("type", .str "outbound"),
          ("receiver", .obj [("name", .str "N")]),
          ("items", .arr [.obj [("detailed_price",
             .obj [("net", .str "1.50"), ("gross", .str "2.00"),
                   ("vat_rate", .str "24"), ("currency", .str "EUR")]),
            ("category", .str "CAT1"), ("description", .str "d")]])],
         [⟨[("detailed_price",
             .obj [("net", .str "1.50"), ("gross", .str "2.00"),
                   ("vat_rate", .str "24"), ("currency", .str "EUR")]),
            ("category", .str "CAT1"), ("description", .str "d")],
           ⟨150, 2⟩, ⟨200, 2⟩, some (.str "CAT1")⟩],
         ⟨2023, 1, 27⟩, ⟨2023, 2, 10⟩⟩ = some (inv2, out) ∧
      getKey out "issue_date" = some (.str "2023-01-27") ∧
      getKey out "due_date" = some (.str "2023-02-10") ∧
      out.map Prod.fst
        = (([("code", .str "X"), ("currency", .str "EUR"), ("subject", .str "T"),
            ("due_date", .str "2023-02-10"), ("issue_date", .str "2023-01-27"),
            ("number", .null), ("type", .str "outbound"),
            ("receiver", .obj [("name", .str "N")]),
            ("items", .arr [.obj [("detailed_price",
               .obj [("net", .str "1.50"), ("gross", .str "2.00"),
                     ("vat_rate", .str "24"), ("currency", .str "EUR")]),
              ("category", .str "CAT1"), ("description", .str "d")]])] : Jobj).map
            Prod.fst).filter (fun k => keyIn k Invoice.valid_keys) ∧
      omapM InvoiceItem.from_doc
        [.obj [("detailed_price",
           .obj [("net", .str "1.50"), ("gross", .str "2.00"),
                 ("vat_rate", .str "24"), ("currency", .str "EUR")]),
          ("category", .str "CAT1"), ("description", .str "d")]]
        = some (⟨[("code", .str "X"), ("currency", .str "EUR"), ("subject", .str "T"),
          ("due_date", .str "2023-02-10"), ("issue_date", .str "2023-01-27"),
          ("number", .null), ("type", .str "outbound"),
          ("receiver", .obj [("name", .str "N")]),
          ("items", .arr [.obj [("detailed_price",
             .obj [("net", .str "1.50"), ("gross", .str "2.00"),
                   ("vat_rate", .str "24"), ("currency", .str "EUR")]),
            ("category", .str "CAT1"), ("description", .str "d")]])],
         [⟨[("detailed_price",
             .obj [("net", .str "1.50"), ("gross", .str "2.00"),
                   ("vat_rate", .str "24"), ("currency", .str "EUR")]),
            ("category", .str "CAT1"), ("description", .str "d")],
           ⟨150, 2⟩, ⟨200, 2⟩, some (.str "CAT1")⟩],
         ⟨2023, 1, 27⟩, ⟨2023, 2, 10⟩⟩ : InvoiceState).items ∧
      omapM InvoiceItem.to_holvi_dict
        (⟨[("code", .str "X"), ("currency", .str "EUR"), ("subject", .str "T"),
          ("due_date", .str "2023-02-10"), ("issue_date", .str "2023-01-27"),
          ("number", .null), ("type", .str "outbound"),
          ("receiver", .obj [("name", .str "N")]),
          ("items", .arr [.obj [("detailed_price",
             .obj [("net", .str "1.50"), ("gross", .str "2.00"),
                   ("vat_rate", .str "24"), ("currency", .str "EUR")]),
            ("category", .str "CAT1"), ("description", .str "d")]])],
         [⟨[("detailed_price",
             .obj [("net", .str "1.50"), ("gross", .str "2.00"),
                   ("vat_rate", .str "24"), ("currency", .str "EUR")]),
            ("category", .str "CAT1"), ("description", .str "d")],
           ⟨150, 2⟩, ⟨200, 2⟩, some (.str "CAT1")⟩],
         ⟨2023, 1, 27⟩, ⟨2023, 2, 10⟩⟩ : InvoiceState).items = some pairs ∧
      getKey out "items" = some (.arr (pairs.map (fun p => JSON.obj p.2))) :=
  C1_invoice_roundtrip
    [("code", .str "X"), ("currency", .str "EUR"), ("subject", .str "T"),
     ("due_date", .str "2023-02-10"), ("issue_date", .str "2023-01-27"),
     ("number", .null), ("type", .str "outbound"),
     ("receiver", .obj [("name", .str "N")]),
     ("items", .arr [.obj [("detailed_price",
        .obj [("net", .str "1.50"), ("gross", .str "2.00"),
              ("vat_rate", .str "24"), ("currency", .str "EUR")]),
       ("category", .str "CAT1"), ("description", .str "d")]])]
    ⟨[("code", .str "X"), ("currency", .str "EUR"), ("subject", .str "T"),
      ("due_date", .str "2023-02-10"), ("issue_date", .str "2023-01-27"),
      ("number", .null), ("type", .str "outbound"),
      ("receiver", .obj [("name", .str "N")]),
      ("items", .arr [.obj [("detailed_price",
         .obj [("net", .str "1.50"), ("gross", .str "2.00"),
               ("vat_rate", .str "24"), ("currency", .str "EUR")]),
        ("category", .str "CAT1"), ("description", .str "d")]])],
     [⟨[("detailed_price",
         .obj [("net", .str "1.50"), ("gross", .str "2.00"),
               ("vat_rate", .str "24"), ("currency", .str "EUR")]),
        ("category", .str "CAT1"), ("description", .str "d")],
       ⟨150, 2⟩, ⟨200, 2⟩, some (.str "CAT1")⟩],
     ⟨2023, 1, 27⟩, ⟨2023, 2, 10⟩⟩
    [.obj [("detailed_price",
       .obj [("net", .str "1.50"), ("gross", .str "2.00"),
             ("vat_rate", .str "24"), ("currency", .str "EUR")]),
      ("category", .str "CAT1"), ("description", .str "d")]]
    "2023-01-27" "2023-02-10" rfl rfl rfl rfl rfl rfl

theorem C10_to_holvi_dict_mutates_witness :
    getKey ([("detailed_price", .obj [("net", .str "1.50"), ("gross", .str "1.50")]),
             ("description", .str "d"), ("category", .str "K")] : Jobj)
        "detailed_price"
      = getKey ([("detailed_price", .obj [("net", .str "1.50"), ("gross", .str "1.50")]),
             ("description", .str "d"), ("category", .str "K")] : Jobj)
        "detailed_price" ∧
    (∀ dp, getKey ([("detailed_price", .obj [("net", .str "1.50"), ("gross", .str "1.50")]),
             ("description", .str "d"), ("category", .str "K")] : Jobj)
        "detailed_price" = some (.obj dp) →
      getKey dp "vat_rate" = none ∧ getKey dp "currency" = none) ∧
    (∃ dp, getKey ([("detailed_price", .obj [("net", .str "1.50"), ("gross", .str "1.50")]),
             ("description", .str "d"), ("category", .str "K")] : Jobj)
        "detailed_price" = some (.obj dp) ∧
      getKey dp "net" = some (.str (decStr2 (quantHalfEven ⟨150, 2⟩))) ∧
      getKey dp "gross" = some (.str (decStr2 (quantHalfEven (itemGross
        ⟨[("detailed_price", .obj [("net", .str "1.50"), ("gross", .str "0.00"),
            ("vat_rate", .str "24"), ("currency", .str "EUR")]),
          ("description", .str "d")], ⟨150, 2⟩, ⟨0, 2⟩, some (.str "K")⟩))))) ∧
    (⟨150, 2⟩ : Dec) = itemGross
      ⟨[("detailed_price", .obj [("net", .str "1.50"), ("gross", .str "0.00"),
          ("vat_rate", .str "24"), ("currency", .str "EUR")]),
        ("description", .str "d")], ⟨150, 2⟩, ⟨0, 2⟩, some (.str "K")⟩ ∧
    (∀ c, (some (.str "K") : Option JSON) = some c →
      getKey ([("detailed_price", .obj [("net", .str "1.50"), ("gross", .str "1.50")]),
             ("description", .str "d"), ("category", .str "K")] : Jobj)
        "category" = some c) :=
  C10_to_holvi_dict_mutates
    ⟨[("detailed_price", .obj [("net", .str "1.50"), ("gross", .str "0.00"),
        ("vat_rate", .str "24"), ("currency", .str "EUR")]),
      ("description", .str "d")], ⟨150, 2⟩, ⟨0, 2⟩, some (.str "K")⟩
    ⟨[("detailed_price", .obj [("net", .str "1.50"), ("gross", .str "1.50")]),
      ("description", .str "d"), ("category", .str "K")],
     ⟨150, 2⟩, ⟨150, 2⟩, some (.str "K")⟩
    [("detailed_price", .obj [("net", .str "1.50"), ("gross", .str "1.50")]),
     ("description", .str "d"), ("category", .str "K")]
    rfl
